import Mathlib

/-!
Verification development for the agricultural-platform streaming/formatting
frontend core. The TypeScript sources are shallowly embedded as executable
Lean definitions:

* `Api` — the SSE stream ingestion loop of `services/api.ts` (`searchStream`);
* `Typewriter` — the reveal engine of `hooks/useTypewriter.ts` (the effect
  body is `advance`, the interval callback is `tick`);
* `StreamingText` — the structured-content bypass and the section parser
  (`parseContentSections`) of the `StreamingText` component;
* `TableFormatter` — `utils/tableFormatter.ts` (`formatAsTable`);
* `GraphTableFormatter` — the graph table formatter (`formatAsGraphTable`).

JavaScript strings are modelled by Lean `String`; the JS string operations
used by the sources (`split('\n')`, `join('\n')`, `startsWith`, `includes`,
`substring(0, n)`, `slice`, `padStart`, `padEnd`) are embedded as the
executable `js*` functions below, defined over the underlying character
list. JS `undefined`/`null` are modelled by `Option`/explicit constructors.
-/

namespace JsStr

/-- Split a character list at every newline character, keeping empty
pieces, as JS `text.split('\n')` does. The result is always non-empty. -/
def splitNL : List Char → List (List Char)
  | [] => [[]]
  | c :: cs =>
    match splitNL cs with
    | [] => [[c]]
    | p :: ps => if c = '\n' then [] :: p :: ps else (c :: p) :: ps

/-- Join pieces with a newline separator, as JS `lines.join('\n')` does. -/
def joinNL : List (List Char) → List Char
  | [] => []
  | [p] => p
  | p :: q :: ps => p ++ '\n' :: joinNL (q :: ps)

end JsStr

/-- JS `text.split('\n')`. -/
def jsSplitLines (s : String) : List String :=
  (JsStr.splitNL s.data).map String.mk

/-- JS `lines.join('\n')`. -/
def jsJoinLines (ls : List String) : String :=
  String.mk (JsStr.joinNL (ls.map String.data))

/-- JS `s.startsWith pre`. -/
def jsStartsWith (s pre : String) : Bool :=
  pre.data.isPrefixOf s.data

/-- Helper for `jsIncludes`: does `pat` match at some position of the list? -/
def jsIncludesAux (pat : List Char) : List Char → Bool
  | [] => pat.isPrefixOf []
  | c :: cs => pat.isPrefixOf (c :: cs) || jsIncludesAux pat cs

/-- JS `s.includes pat` (substring containment). -/
def jsIncludes (s pat : String) : Bool :=
  jsIncludesAux pat.data s.data

/-- JS `s.substring(0, n)` (also `s.slice(0, n)` for `0 ≤ n`). -/
def jsTake (s : String) (n : Nat) : String :=
  String.mk (s.data.take n)

/-- JS `s.slice(n)` for `0 ≤ n` (drop the first `n` characters). -/
def jsDrop (s : String) (n : Nat) : String :=
  String.mk (s.data.drop n)

/-- JS `s.slice(0, -1)` (drop the last character). -/
def jsDropLast (s : String) : String :=
  String.mk s.data.dropLast

/-- JS `s.padEnd(width)`: right-pad with spaces up to `width`. -/
def jsPadEnd (s : String) (width : Nat) : String :=
  s ++ String.mk (List.replicate (width - s.length) ' ')

/-- JS `s.padStart(width)`: left-pad with spaces up to `width`. -/
def jsPadStart (s : String) (width : Nat) : String :=
  String.mk (List.replicate (width - s.length) ' ') ++ s

/-- JS `c.repeat n` for a single box-drawing character. -/
def jsRepeat (c : Char) (n : Nat) : String :=
  String.mk (List.replicate n c)

/-- JS `s.trim()`: strip whitespace from both ends. -/
def jsTrim (s : String) : String :=
  String.mk
    (((s.data.dropWhile Char.isWhitespace).reverse.dropWhile
        Char.isWhitespace).reverse)

namespace Api

/-!
Embedding of the stream-processing loop of `searchStream` in
`src/frontend/src/services/api.ts` (lines 94-147). The decoded JSON
payloads of this repository's protocol carry at most a `text` and a
`status` field, so a decoded message is modelled by `Msg`; `JSON.parse`
is a platform builtin, modelled by a `decode` parameter that returns
`none` when parsing throws. Callback invocations are recorded as an
event trace: `message m` for `onMessage(m)`, `complete` for
`onComplete()`, `error` for `onError(e)`.
-/

/-- A decoded stream message: the only fields this core reads. -/
structure Msg where
  text : Option String
  status : Option String
deriving DecidableEq, Repr

/-- One callback invocation of the ingestion loop. -/
inductive SEvent where
  | message (m : Msg)
  | complete
  | error
deriving DecidableEq, Repr

/-- Process one complete line of the buffer (the body of the `for` loop
over `lines`): a line is a data frame iff it starts with `"data: "`; the
remainder, if non-blank after trimming, is decoded; a decode failure is
logged and skipped. Returns the events fired and whether the loop
returned early because `parsed.status === 'complete'`. -/
def processFrameLine (decode : String → Option Msg) (line : String) :
    List SEvent × Bool :=
  if jsStartsWith line "data: " then
    let data := jsDrop line 6
    if jsTrim data ≠ "" then
      match decode data with
      | some parsed =>
          if parsed.status = some "complete" then
            ([SEvent.message parsed, SEvent.complete], true)
          else
            ([SEvent.message parsed], false)
      | none => ([], false)
    else ([], false)
  else ([], false)

/-- Process the complete lines extracted from the buffer, stopping at the
first early return. -/
def processLines (decode : String → Option Msg) :
    List String → List SEvent × Bool
  | [] => ([], false)
  | l :: ls =>
    match processFrameLine decode l with
    | (evs, true) => (evs, true)
    | (evs, false) =>
        let rest := processLines decode ls
        (evs ++ rest.1, rest.2)

/-- The `while (true)` read loop: each transport chunk is appended to the
carried buffer, the buffer is split on newlines, the last (possibly
incomplete) fragment is held back, and the complete lines are processed.
Transport EOF (list exhausted) fires `onComplete`. -/
def runStream (decode : String → Option Msg) :
    List String → String → List SEvent
  | [], _ => [SEvent.complete]
  | c :: cs, buffer =>
    let parts := jsSplitLines (buffer ++ c)
    let res := processLines decode parts.dropLast
    if res.2 then res.1
    else res.1 ++ runStream decode cs (parts.getLast?.getD "")

/-- Events fired by `searchStream` when the transport delivers the given
chunks and then signals EOF. -/
def searchStreamEvents (decode : String → Option Msg)
    (chunks : List String) : List SEvent :=
  runStream decode chunks ""

/-- Modelled `JSON.parse` results for the three frames of the C1
scenario (the decoder itself is a platform builtin, not repository
code); any other payload is treated as a parse failure. -/
def decodeFrames : String → Option Msg
  | "\x7b\"text\":\"A\"\x7d" => some ⟨some "A", none⟩
  | "\x7b\"text\":\"AB\"\x7d" => some ⟨some "AB", none⟩
  | "\x7b\"status\":\"complete\"\x7d" => some ⟨none, some "complete"⟩
  | _ => none

/-- The three newline-terminated frame lines of the C1 scenario, as one
delivered chunk. -/
def c1Chunk : String :=
  "data: \x7b\"text\":\"A\"\x7d\n" ++
  "data: \x7b\"text\":\"AB\"\x7d\n" ++
  "data: \x7b\"status\":\"complete\"\x7d\n"

/-- Number of `onMessage` invocations in a trace. -/
def countMessages (evs : List SEvent) : Nat :=
  evs.countP (fun e => match e with | SEvent.message _ => true | _ => false)

/-- Number of `onComplete` invocations in a trace. -/
def countCompletes (evs : List SEvent) : Nat :=
  evs.countP (fun e => match e with | SEvent.complete => true | _ => false)

/-- Number of `onError` invocations in a trace. -/
def countErrors (evs : List SEvent) : Nat :=
  evs.countP (fun e => match e with | SEvent.error => true | _ => false)

end Api

namespace Typewriter

/-!
Embedding of `useTypewriter` in `src/frontend/src/hooks/useTypewriter.ts`.
The hook state is `TWState`; the effect body (lines 20-98), which runs
whenever fresh content arrives, is `advance`; the `setInterval` callback
(lines 79-97) is `tick`. The interval handle is modelled by
`interval : Option String`, holding the `text` captured by the running
callback closure (`none` when no interval is live); `gen` instruments the
state with the number of `setInterval` calls made so far, so that
"the tick was restarted" is observable as an increase of `gen`.
`onComplete` invocations are not traced here (no claim needs them).
-/

/-- State of one `useTypewriter` instance. -/
structure TWState where
  display : String
  cursor : Nat
  isTyping : Bool
  interval : Option String
  gen : Nat
deriving DecidableEq, Repr

/-- The initial hook state: `useState('')`, `useState(false)`,
`useState(0)`, `useRef(null)`. -/
def initState : TWState :=
  { display := "", cursor := 0, isTyping := false, interval := none,
    gen := 0 }

/-- The effect body, run when `text` (the new target) arrives.
Mirrors lines 20-98 of the hook: the empty-text early return, the
exact-match no-op, the extension test (shrink check, non-empty display,
strict growth, prefix check, typing-lag tolerance of 10), the restart
with the 10000-character bulk-reveal optimisation, and the
clear-and-restart of the interval on every non-extension. -/
def advance (s : TWState) (text : String) : TWState :=
  if text = "" then { s with isTyping := false }
  else if text = s.display then s
  else
    let isShrinking : Bool := text.length < s.display.length
    let typingLag : Nat := s.display.length - s.cursor
    let isTypingBehind : Bool := typingLag > 10
    let isExtension : Bool :=
      !isShrinking && s.display.length > 0 &&
        text.length > s.display.length && jsStartsWith text s.display &&
        !isTypingBehind
    if isExtension then
      { s with isTyping := true }
    else
      let s1 :=
        if text.length > 10000 then
          { s with display := jsTake text 10000, cursor := 10000 }
        else
          { s with display := "", cursor := 0 }
      { s1 with isTyping := true, interval := some text, gen := s.gen + 1 }

/-- One firing of the interval callback. The closure advances toward the
`text` captured when the interval was started; on reaching its end it
clears the interval, leaves typing mode and fires `onComplete`. -/
def tick (s : TWState) : TWState :=
  match s.interval with
  | none => s
  | some text =>
    if s.cursor < text.length then
      { s with cursor := s.cursor + 1, display := jsTake text (s.cursor + 1) }
    else
      { s with interval := none, isTyping := false }

/-- `n` consecutive interval firings. -/
def ticks : Nat → TWState → TWState
  | 0, s => s
  | n + 1, s => ticks n (tick s)

end Typewriter

namespace StreamingText

/-!
Embedding of the `StreamingText` component (the streaming-text
presenter). `isStructuredContent` and the display selection mirror the
ternary at the top of the component; `parseContentSections` mirrors the
stateful single-pass line parser.
-/

/-- The structured-content check: `content && (content.includes('===
ANALYSIS ===') || content.includes('=== DATA TABLE ==='))`, with JS
falsiness of the empty string made explicit. -/
def isStructuredContent (content : String) : Bool :=
  content ≠ "" &&
    (jsIncludes content "=== ANALYSIS ===" ||
      jsIncludes content "=== DATA TABLE ===")

/-- The rendered `(displayText, isTyping)` pair: for structured content
the typewriter is bypassed and the full content shown with the typing
indicator off; otherwise the typewriter result is rendered. -/
def streamingDisplay (content : String) (tw : Typewriter.TWState) :
    String × Bool :=
  if isStructuredContent content then (content, false)
  else (tw.display, tw.isTyping)

/-- Section kinds produced by `parseContentSections` (the JS string
tags `'text'`, `'analysis'`, `'table-header'`, `'graph-table-header'`,
`'table'`, `'graph-table'`). -/
inductive SType where
  | text
  | analysis
  | tableHeader
  | graphTableHeader
  | table
  | graphTable
deriving DecidableEq, Repr

/-- A completed section as pushed on the result array: its kind and its
joined content string. -/
structure Section where
  type : SType
  content : String
deriving DecidableEq, Repr

/-- The in-progress section: its kind and its accumulated line list. -/
structure CurSection where
  type : SType
  content : List String
deriving DecidableEq, Repr

/-- Parser state carried across lines: completed sections, the current
section, and the `inTable` flag. -/
structure PState where
  sections : List Section
  cur : CurSection
  inTable : Bool
deriving DecidableEq, Repr

/-- Push the current section onto the result if it has accumulated any
lines, joining them with newlines (the `if (currentSection.content.length
> 0) sections.push({...currentSection, content: ...join('\n')})` idiom). -/
def pushCur (ss : List Section) (cur : CurSection) : List Section :=
  if cur.content.length > 0 then ss ++ [⟨cur.type, jsJoinLines cur.content⟩]
  else ss

/-- The box-drawing glyph test of the table-content branch: the line
contains any of the twelve recognised single-line, double-line or
junction characters. -/
def hasTableGlyph (line : String) : Bool :=
  jsIncludes line "┌" || jsIncludes line "│" || jsIncludes line "└" ||
  jsIncludes line "├" || jsIncludes line "┼" || jsIncludes line "┤" ||
  jsIncludes line "╞" || jsIncludes line "╪" || jsIncludes line "╡" ||
  jsIncludes line "╔" || jsIncludes line "║" || jsIncludes line "╚"

/-- One iteration of the `for (const line of lines)` loop of
`parseContentSections`. `isGraph` is `displayFormat === 'neo4j_graph'`. -/
def stepLine (isGraph : Bool) (st : PState) (line : String) : PState :=
  if line = "=== ANALYSIS ===" ∨ line = "=== ANÁLISIS ===" then
    { sections := pushCur st.sections st.cur,
      cur := ⟨SType.analysis, [line]⟩, inTable := false }
  else if line = "=== DATA TABLE ===" ∨ line = "=== TABLA DE DATOS ===" ∨
      line = "=== GRAPH DATA ===" then
    let tableType := if isGraph then SType.graphTableHeader else SType.tableHeader
    { sections := pushCur st.sections st.cur,
      cur := ⟨tableType, [line]⟩, inTable := true }
  else if st.inTable ∧ hasTableGlyph line then
    let tableType := if isGraph then SType.graphTable else SType.table
    if st.cur.type ≠ tableType ∧ st.cur.type ≠ SType.table then
      { sections := pushCur st.sections st.cur,
        cur := ⟨tableType, [line]⟩, inTable := st.inTable }
    else
      { st with cur := ⟨st.cur.type, st.cur.content ++ [line]⟩ }
  else if st.inTable ∧ st.cur.type = SType.table ∧ jsTrim line ≠ "" ∧
      ¬jsIncludes line "rows" then
    { st with cur := ⟨st.cur.type, st.cur.content ++ [line]⟩ }
  else if st.inTable ∧ jsIncludes line "rows" then
    { sections := st.sections ++
        [⟨st.cur.type, jsJoinLines (st.cur.content ++ [line])⟩],
      cur := ⟨SType.text, []⟩, inTable := false }
  else
    if st.inTable ∧ st.cur.type = SType.table then
      { sections := pushCur st.sections st.cur,
        cur := ⟨SType.analysis, [line]⟩, inTable := false }
    else
      { st with cur := ⟨st.cur.type, st.cur.content ++ [line]⟩ }

/-- The initial parser state: `{ type: 'text', content: [] }`, not in a
table. -/
def initPState : PState := ⟨[], ⟨SType.text, []⟩, false⟩

/-- `parseContentSections(text)`: empty text yields no sections;
otherwise the lines are processed in order and the final section, if
non-empty, is appended. -/
def parseContentSections (isGraph : Bool) (text : String) : List Section :=
  if text = "" then []
  else
    let lines := jsSplitLines text
    let final := lines.foldl (stepLine isGraph) initPState
    pushCur final.sections final.cur

/-- The lines of a completed section, recovered from its joined
content. -/
def sectionLines (s : Section) : List String :=
  jsSplitLines s.content

end StreamingText

namespace TableFormatter

/-!
Embedding of `src/frontend/src/utils/tableFormatter.ts`. A scalar cell
value (`string | number | null`, plus `undefined` for a missing key) is
`JValue`; JS numbers are modelled as exact rationals (the claims never
exercise binary floating-point rounding). A row is an ordered
association list, mirroring a JS object's insertion-ordered keys.
-/

/-- A scalar table cell value. -/
inductive JValue where
  | num (q : Rat)
  | str (s : String)
  | null
  | undef
deriving DecidableEq, Repr

/-- A tabular row: ordered column-name/value pairs (a JS object). -/
abbrev TabRow := List (String × JValue)

/-- JS property access `row[header]`: the value under the key, or
`undefined` when the key is absent. -/
def rowGet (row : TabRow) (key : String) : JValue :=
  ((row.find? (fun p => p.1 == key)).map (·.2)).getD JValue.undef

/-- Group a reversed digit list into blocks of three with commas
(helper for the `toLocaleString('en-US')` thousands separators). -/
def group3 : List Char → List Char
  | a :: b :: c :: d :: t => a :: b :: c :: ',' :: group3 (d :: t)
  | l => l

/-- Decimal rendering of an integer with `en-US` thousands
separators. -/
def groupInt (i : Int) : String :=
  (if i < 0 then "-" else "") ++
    String.mk ((group3 (toString i.natAbs).data.reverse).reverse)

/-- Rendering of a non-integer number with exactly two fraction digits
and thousands separators, as `toLocaleString('en-US', {
minimumFractionDigits: 2, maximumFractionDigits: 2 })` produces. The
tie-breaking of the final rounding step is modelled as round half up;
no claim exercises it. -/
def formatDecimal2 (q : Rat) : String :=
  let sign := if q < 0 then "-" else ""
  let n : Int := ⌊|q| * 100 + 1 / 2⌋
  let ip := n / 100
  let fr := (n % 100).toNat
  sign ++ groupInt ip ++ "." ++
    (if fr < 10 then "0" else "") ++ toString fr

/-- `formatNumber` (lines 27-40): numbers are grouped, with two fixed
fraction digits when not an integer; any other value is `String(value)`. -/
def formatNumber : JValue → String
  | JValue.num q => if q.den ≠ 1 then formatDecimal2 q else groupInt q.num
  | JValue.str s => s
  | JValue.null => "null"
  | JValue.undef => "undefined"

/-- Does `parseFloat(String(value))` produce a number (not `NaN`)?
JS `parseFloat` skips leading whitespace, an optional sign, and succeeds
iff a digit follows (possibly after a decimal point) or the literal
`Infinity` starts there. -/
def jsParseFloatOk (s : String) : Bool :=
  let cs := (jsTrim s).data
  let cs := match cs with
    | '+' :: t => t
    | '-' :: t => t
    | t => t
  "Infinity".data.isPrefixOf cs ||
    (match cs with
     | '.' :: c :: _ => c.isDigit
     | c :: _ => c.isDigit
     | [] => false)

/-- `isNumeric` (lines 45-47): a number, or a string `parseFloat` can
read a number from. -/
def isNumeric : JValue → Bool
  | JValue.num _ => true
  | JValue.str s => jsParseFloatOk s
  | JValue.null => false
  | JValue.undef => false

/-- `padCell` (lines 52-57). -/
def padCell (value : String) (width : Nat) (alignRight : Bool) : String :=
  if alignRight then jsPadStart value width else jsPadEnd value width

/-- Column set: the keys of the first row, in order. -/
def tableHeaders (data : List TabRow) : List String :=
  (data.headD []).map (·.1)

/-- Column width (lines 71-90): start from the header length and fold
over all rows, growing to each formatted cell length but capping at 40
on every step. -/
def tabColWidth (data : List TabRow) (header : String) : Nat :=
  data.foldl
    (fun w row => min (max w (formatNumber (rowGet row header)).length) 40)
    header.length

/-- Column alignment flag (lines 76-92): starts `true` and stays true
iff every non-null, non-undefined value in the column is numeric. -/
def tabColNumeric (data : List TabRow) (header : String) : Bool :=
  data.foldl
    (fun hasNumbers row =>
      let raw := rowGet row header
      if hasNumbers = true ∧ raw ≠ JValue.null ∧ raw ≠ JValue.undef then
        hasNumbers && isNumeric raw
      else hasNumbers)
    true

/-- Border segments after the opening corner: a run of fill characters
per column, separated by the join glyph, closed by the corner glyph
(mirrors the `forEach` with its `idx < headers.length - 1` ternary). -/
def borderSegs (data : List TabRow) (fill : Char) (joinC : Char)
    (rightC : Char) : List String → String
  | [] => ""
  | [h] => jsRepeat fill (tabColWidth data h + 2) ++ String.mk [rightC]
  | h :: h2 :: t =>
      jsRepeat fill (tabColWidth data h + 2) ++ String.mk [joinC] ++
        borderSegs data fill joinC rightC (h2 :: t)

/-- The top border line. -/
def topBorder (data : List TabRow) : String :=
  "┌" ++ borderSegs data '─' '┬' '┐' (tableHeaders data)

/-- The header row (lines 102-107): headers are always passed
`alignRight = false`. -/
def headerRow (data : List TabRow) : String :=
  "│" ++ String.join ((tableHeaders data).map
    (fun h => " " ++ padCell h (tabColWidth data h) false ++ " " ++ "│"))

/-- The double-line header separator. -/
def headerSeparator (data : List TabRow) : String :=
  "╞" ++ borderSegs data '═' '╪' '╡' (tableHeaders data)

/-- The text of a data cell before padding (lines 121-132):
`formatNumber`, null/undefined to empty, truncation at 40 to 37 plus
`"..."`. -/
def cellText (row : TabRow) (header : String) : String :=
  let rawValue := rowGet row header
  let value := formatNumber rawValue
  let value :=
    if rawValue = JValue.null ∨ rawValue = JValue.undef then "" else value
  if value.length > 40 then jsTake value 37 ++ "..." else value

/-- One rendered cell of a data row (lines 120-135): the cell text,
padded to the column width with the column's numeric-alignment flag. -/
def dataCell (data : List TabRow) (row : TabRow) (header : String) :
    String :=
  padCell (cellText row header) (tabColWidth data header)
    (tabColNumeric data header)

/-- One rendered data-row line. -/
def dataRowLine (data : List TabRow) (row : TabRow) : String :=
  "│" ++ String.join ((tableHeaders data).map
    (fun h => " " ++ dataCell data row h ++ " " ++ "│"))

/-- The rendered data rows: `data.slice(0, 100)` (lines 117-138). -/
def tableDataRows (data : List TabRow) : List String :=
  (data.take 100).map (dataRowLine data)

/-- The bottom border line. -/
def bottomBorder (data : List TabRow) : String :=
  "└" ++ borderSegs data '─' '┴' '┘' (tableHeaders data)

/-- The footer text (lines 158-160): total count with the
showing-first-100 notice, or the exact count with the singular/plural
noun. -/
def rowCountText (data : List TabRow) : String :=
  if data.length > 100 then
    toString data.length ++ " rows (showing first 100)"
  else
    toString data.length ++ " row" ++
      (if data.length = 1 then "" else "s")

/-- The centered footer line (lines 161-162). -/
def centeredRowCount (data : List TabRow) : String :=
  let tableWidth := (topBorder data).length
  let padding := (tableWidth - (rowCountText data).length) / 2
  jsRepeat ' ' padding ++ rowCountText data

/-- The assembled table line list (lines 148-164). -/
def tableLines (data : List TabRow) : List String :=
  [topBorder data, headerRow data, headerSeparator data] ++
    tableDataRows data ++ [bottomBorder data] ++ [centeredRowCount data]

/-- `formatAsTable` (lines 59-167). -/
def formatAsTable (data : List TabRow) : String :=
  if data.length = 0 then "No data available"
  else jsJoinLines (tableLines data)

end TableFormatter

namespace GraphTableFormatter

/-!
Embedding of the graph table formatter (`formatAsGraphTable`). When
`display_format` is not `'neo4j_graph'` or the data is empty/non-array,
the source delegates to the regular `formatAsTable` fallback
(`formatAsRegularTable`); the definitions below embed the graph branch
(lines 223-332), which the claims are about, for a non-empty node list.
Missing (`undefined`) fields of a `GraphNode` are modelled by `none`.
-/

/-- A graph node row of the wire payload. -/
structure GraphNode where
  node_id : Option String
  labels : Option String
  name : Option String
  properties : Option (List String)
  relationships : Option (List String)
deriving DecidableEq, Repr

/-- JS `x || d` for an optional string field: `undefined` and the empty
string are falsy. -/
def jsStrOr (o : Option String) (d : String) : String :=
  match o with
  | some s => if s = "" then d else s
  | none => d

/-- `getNodeValue` (lines 338-353). -/
def getNodeValue (node : GraphNode) (key : String) : String :=
  if key = "node_id" then jsStrOr node.node_id ""
  else if key = "labels" then jsStrOr node.labels "[:Node]"
  else if key = "name" then jsStrOr node.name ""
  else if key = "properties" then
    match node.properties with
    | some ps => if ps.length > 0 then ps.headD "" else ""
    | none => ""
  else if key = "relationships" then
    match node.relationships with
    | some rs => if rs.length > 0 then rs.headD "" else ""
    | none => ""
  else ""

/-- The fixed column set (key, header); the hard-coded initial widths of
the source are overwritten before any use. -/
def graphColumns : List (String × String) :=
  [("labels", "Labels"), ("name", "Name"), ("properties", "Properties"),
   ("relationships", "Relationships")]

/-- Column width (lines 234-243): `Math.max(header.length,
...node cell lengths) + 2`, where the per-node cell length is
`getNodeValue(node, key).length`. -/
def colWidth (nodes : List GraphNode) (key header : String) : Nat :=
  (nodes.map (fun n => (getNodeValue n key).length)).foldl max
    header.length + 2

/-- `padString` (lines 370-376): truncate with a single ellipsis when
too wide, else right-pad with spaces. -/
def padString (str : String) (width : Nat) : String :=
  if str.length > width then jsTake str (width - 1) ++ "…"
  else jsPadEnd str width

/-- The cell value of column `key` on physical line `lineIndex` of a
node block (lines 288-297): single-valued columns only on the first
line; `properties[lineIndex] || ''` / `relationships[lineIndex] || ''`
otherwise (out-of-range and empty entries both render empty). -/
def nodeCellValue (node : GraphNode) (key : String) (lineIndex : Nat) :
    String :=
  if lineIndex = 0 ∧ (key = "node_id" ∨ key = "labels" ∨ key = "name") then
    getNodeValue node key
  else if key = "properties" then
    match node.properties with
    | some ps => ps.getD lineIndex ""
    | none => ""
  else if key = "relationships" then
    match node.relationships with
    | some rs => rs.getD lineIndex ""
    | none => ""
  else ""

/-- JS `xs?.length || 1`. -/
def optLenOr1 (o : Option (List String)) : Nat :=
  match o with
  | some l => if l.length = 0 then 1 else l.length
  | none => 1

/-- `maxLines` (lines 279-282). -/
def nodeMaxLines (node : GraphNode) : Nat :=
  max (optLenOr1 node.properties) (optLenOr1 node.relationships)

/-- One physical line of a node block (lines 284-304): double bar,
cells padded into `width - 2` with single-space gutters and single
inner bars, the trailing inner bar replaced by the closing double
bar via `slice(0, -1)`. -/
def nodeRowLine (nodes : List GraphNode) (node : GraphNode)
    (lineIndex : Nat) : String :=
  jsDropLast ("║" ++ String.join (graphColumns.map
    (fun c => " " ++
      padString (nodeCellValue node c.1 lineIndex) (colWidth nodes c.1 c.2 - 2)
      ++ " " ++ "│"))) ++ "║"

/-- All physical lines of one node block. -/
def nodeLines (nodes : List GraphNode) (node : GraphNode) : List String :=
  (List.range (nodeMaxLines node)).map (nodeRowLine nodes node)

/-- Border segments (fill runs joined by the junction glyph); the outer
corners are appended separately, as in the source's `forEach`. -/
def graphSegs (nodes : List GraphNode) (fill : Char) (joinC : Char) :
    List (String × String) → String
  | [] => ""
  | [c] => jsRepeat fill (colWidth nodes c.1 c.2)
  | c :: c2 :: t =>
      jsRepeat fill (colWidth nodes c.1 c.2) ++ String.mk [joinC] ++
        graphSegs nodes fill joinC (c2 :: t)

/-- The single-line separator drawn between node blocks. -/
def rowSeparator (nodes : List GraphNode) : String :=
  "├" ++ graphSegs nodes '─' '┼' graphColumns ++ "┤"

/-- One node block as it is appended to the output (each line
newline-terminated). -/
def nodeBlock (nodes : List GraphNode) (node : GraphNode) : String :=
  String.join ((nodeLines nodes node).map (· ++ "\n"))

/-- The data-row area: node blocks with a separator line after every
block but the last. -/
def dataRowsStr (nodes : List GraphNode) : List GraphNode → String
  | [] => ""
  | [n] => nodeBlock nodes n
  | n :: n2 :: t =>
      nodeBlock nodes n ++ rowSeparator nodes ++ "\n" ++
        dataRowsStr nodes (n2 :: t)

/-- The graph branch of `formatAsGraphTable` (lines 223-332), for
`display_format === 'neo4j_graph'` and a non-empty node array. -/
def formatAsGraphTable (nodes : List GraphNode) : String :=
  "╔" ++ graphSegs nodes '═' '╤' graphColumns ++ "╗" ++ "\n" ++
  (jsDropLast ("║" ++ String.join (graphColumns.map
    (fun c => " " ++ padString c.2 (colWidth nodes c.1 c.2 - 2) ++ " " ++
      "│"))) ++ "║") ++ "\n" ++
  "╟" ++ graphSegs nodes '═' '╪' graphColumns ++ "╢" ++ "\n" ++
  dataRowsStr nodes nodes ++
  "╚" ++ graphSegs nodes '═' '╧' graphColumns ++ "╝" ++ "\n" ++
  "\n(" ++ toString nodes.length ++ " nodes)\n"

/-- Cell contents of a column for one node as the SPEC describes them
(comparison definition following the spec's words, for claim C5): for
the multi-valued columns, every entry of the node's sequence; for the
single-valued columns, the displayed value. -/
def specCellContents (node : GraphNode) (key : String) : List String :=
  if key = "properties" then node.properties.getD []
  else if key = "relationships" then node.relationships.getD []
  else [getNodeValue node key]

/-- Column width as the SPEC describes it (comparison definition for
claim C5): max over the header length and the lengths of all cell
contents across all nodes, including every entry of every node's
properties/relationships sequences, plus 2 padding. -/
def specColWidth (nodes : List GraphNode) (key header : String) : Nat :=
  ((nodes.flatMap (fun n => specCellContents n key)).map
    String.length).foldl max header.length + 2

end GraphTableFormatter

/-! ## Helper lemmas -/

namespace JsStr

theorem splitNL_ne_nil (cs : List Char) : splitNL cs ≠ [] := by
  induction cs with
  | nil => simp [splitNL]
  | cons c cs ih =>
    simp only [splitNL]
    cases h : splitNL cs with
    | nil => simp
    | cons p ps =>
      by_cases hc : c = '\n' <;> simp [hc]

theorem splitNL_no_newline (cs : List Char) :
    ∀ p ∈ splitNL cs, '\n' ∉ p := by
  induction cs with
  | nil => intro p hp; simp [splitNL] at hp; simp [hp]
  | cons c cs ih =>
    intro p hp
    simp only [splitNL] at hp
    cases h : splitNL cs with
    | nil => exact absurd h (splitNL_ne_nil cs)
    | cons q qs =>
      rw [h] at hp
      by_cases hc : c = '\n'
      · simp [hc] at hp
        rcases hp with hp | hp | hp
        · simp [hp]
        · exact ih p (by rw [h, hp]; simp)
        · exact ih p (by rw [h]; simp [hp])
      · simp [hc] at hp
        rcases hp with hp | hp
        · rw [hp]
          intro hmem
          rcases List.mem_cons.mp hmem with h1 | h1
          · exact hc h1.symm
          · exact ih q (by rw [h]; simp) h1
        · exact ih p (by rw [h]; simp [hp])

theorem splitNL_append_no_newline (p cs : List Char) (hp : '\n' ∉ p) :
    splitNL (p ++ cs) =
      match splitNL cs with
      | [] => [p]
      | q :: qs => (p ++ q) :: qs := by
  induction p with
  | nil =>
    simp only [List.nil_append]
    cases h : splitNL cs with
    | nil => exact absurd h (splitNL_ne_nil cs)
    | cons q qs => simp
  | cons c p ih =>
    have hc : c ≠ '\n' := by intro h; exact hp (by simp [h])
    have hp' : '\n' ∉ p := fun h => hp (by simp [h])
    cases h : splitNL cs with
    | nil => exact absurd h (splitNL_ne_nil cs)
    | cons q qs =>
      simp only [List.cons_append, splitNL, List.append_eq]
      rw [ih hp', h]
      simp [hc]

theorem splitNL_joinNL (ps : List (List Char)) (hne : ps ≠ [])
    (hfree : ∀ p ∈ ps, '\n' ∉ p) : splitNL (joinNL ps) = ps := by
  induction ps with
  | nil => exact absurd rfl hne
  | cons p ps ih =>
    cases ps with
    | nil =>
      simp only [joinNL]
      have hp : '\n' ∉ p := hfree p (by simp)
      have := splitNL_append_no_newline p [] hp
      simpa [splitNL] using this
    | cons q qs =>
      have hp : '\n' ∉ p := hfree p (by simp)
      simp only [joinNL]
      rw [splitNL_append_no_newline p ('\n' :: joinNL (q :: qs)) hp]
      have hrec : splitNL (joinNL (q :: qs)) = q :: qs :=
        ih (by simp) (fun r hr => hfree r (by simp [hr]))
      simp only [splitNL, hrec]
      simp

end JsStr

theorem jsSplitLines_ne_nil (s : String) : jsSplitLines s ≠ [] := by
  simp [jsSplitLines, JsStr.splitNL_ne_nil]

theorem isPrefixOf_self (l : List Char) : l.isPrefixOf l = true := by
  induction l with
  | nil => rfl
  | cons c cs ih => simp [List.isPrefixOf, ih]

theorem isPrefixOf_take (l : List Char) (n : Nat) :
    (l.take n).isPrefixOf l = true := by
  induction l generalizing n with
  | nil => simp [List.isPrefixOf]
  | cons c cs ih =>
    cases n with
    | zero => rfl
    | succ n => simp [List.isPrefixOf, ih]

theorem nil_isPrefixOf (l : List Char) : List.isPrefixOf [] l = true := by
  cases l <;> rfl

theorem string_ne_empty_of_length_pos {s : String} (h : 0 < s.length) :
    s ≠ "" := by
  intro he
  rw [he] at h
  simp at h

theorem string_length_pos_of_ne_empty {s : String} (h : s ≠ "") :
    0 < s.length := by
  cases s with
  | mk data =>
    cases data with
    | nil => exact absurd rfl h
    | cons c cs => simp [String.length]

namespace Typewriter

theorem tick_cursor_le (s : TWState) : s.cursor ≤ (tick s).cursor := by
  unfold tick
  cases s.interval with
  | none => exact Nat.le_refl _
  | some t =>
    by_cases h : s.cursor < t.length <;> simp [h]

theorem tick_gen_eq (s : TWState) : (tick s).gen = s.gen := by
  unfold tick
  cases s.interval with
  | none => rfl
  | some t =>
    by_cases h : s.cursor < t.length <;> simp [h]

theorem ticks_cursor_le (n : Nat) (s : TWState) :
    s.cursor ≤ (ticks n s).cursor := by
  induction n generalizing s with
  | zero => exact Nat.le_refl _
  | succ n ih => exact Nat.le_trans (tick_cursor_le s) (ih (tick s))

theorem ticks_gen_eq (n : Nat) (s : TWState) : (ticks n s).gen = s.gen := by
  induction n generalizing s with
  | zero => rfl
  | succ n ih => rw [ticks, ih, tick_gen_eq]

/-- When the new text is a strict extension of a non-empty display and
typing is not lagging beyond the tolerance, the effect takes the
extension branch: everything but `isTyping` is left exactly as-is. -/
theorem advance_extension (s : TWState) (text : String)
    (hne : text ≠ "")
    (hgrow : s.display.length < text.length)
    (hpre : jsStartsWith text s.display = true)
    (hdisp : s.display ≠ "")
    (hlag : s.display.length - s.cursor ≤ 10) :
    advance s text = { s with isTyping := true } := by
  have hneq : text ≠ s.display := by
    intro h
    rw [h] at hgrow
    exact Nat.lt_irrefl _ hgrow
  have hdlen : 0 < s.display.length := string_length_pos_of_ne_empty hdisp
  unfold advance
  rw [if_neg hne, if_neg hneq]
  have hshrink : decide (text.length < s.display.length) = false := by
    simp [Nat.not_lt.mpr (Nat.le_of_lt hgrow)]
  have hext : (!decide (text.length < s.display.length) &&
      decide (s.display.length > 0) &&
      decide (text.length > s.display.length) && jsStartsWith text s.display &&
      !decide (s.display.length - s.cursor > 10)) = true := by
    simp [hshrink, hdlen, hgrow, hpre, Nat.not_lt.mpr hlag]
  simp only [hext, if_true]

/-- When the new text is non-empty and does not start with the current
display, the effect takes the restart branch: display and cursor jump to
the first 10000 characters (large text) or to empty, and a fresh
interval capturing `text` is started. -/
theorem advance_restart (s : TWState) (text : String)
    (hne : text ≠ "")
    (hpre : jsStartsWith text s.display = false) :
    advance s text =
      if text.length > 10000 then
        ⟨jsTake text 10000, 10000, true, some text, s.gen + 1⟩
      else
        ⟨"", 0, true, some text, s.gen + 1⟩ := by
  have hneq : text ≠ s.display := by
    intro h
    rw [← h] at hpre
    simp [jsStartsWith, isPrefixOf_self] at hpre
  unfold advance
  rw [if_neg hne, if_neg hneq]
  have hext : (!decide (text.length < s.display.length) &&
      decide (s.display.length > 0) &&
      decide (text.length > s.display.length) && jsStartsWith text s.display &&
      !decide (s.display.length - s.cursor > 10)) = false := by
    simp [hpre]
  simp only [hext, Bool.false_eq_true, if_false]
  by_cases hlen : text.length > 10000 <;> simp [hlen]

end Typewriter

/-! ## Claim theorems -/

/-- C1 counterexample: with the transport delivering exactly the three
newline-terminated frame lines `data: {"text":"A"}`, `data:
{"text":"AB"}`, `data: {"status":"complete"}`, `onMessage` is NOT
invoked exactly twice — the loop forwards the terminal status message to
`onMessage` as well before firing `onComplete`. -/
theorem claim_C1_counterexample :
    Api.countMessages
      (Api.searchStreamEvents Api.decodeFrames [Api.c1Chunk]) ≠ 2 := by
  decide

/-- C1 (amended): under the three-frame scenario, ingestion invokes
`onMessage` exactly three times — the two text messages in order and
then the terminal status message — followed by `onComplete` exactly
once, and never invokes `onError`. -/
theorem claim_C1_amended :
    Api.searchStreamEvents Api.decodeFrames [Api.c1Chunk] =
      [Api.SEvent.message ⟨some "A", none⟩,
       Api.SEvent.message ⟨some "AB", none⟩,
       Api.SEvent.message ⟨none, some "complete"⟩,
       Api.SEvent.complete] ∧
    Api.countMessages
      (Api.searchStreamEvents Api.decodeFrames [Api.c1Chunk]) = 3 ∧
    Api.countCompletes
      (Api.searchStreamEvents Api.decodeFrames [Api.c1Chunk]) = 1 ∧
    Api.countErrors
      (Api.searchStreamEvents Api.decodeFrames [Api.c1Chunk]) = 0 := by
  refine ⟨by decide, by decide, by decide, by decide⟩

/-- C4 counterexample: a content consisting of the structural marker
line `=== GRAPH DATA ===` (and likewise the translated variant
`=== ANÁLISIS ===`) does NOT bypass the animator: right after the
content arrives, the rendered text is the animator's empty display, not
the full content, and the rendered typing flag is on. -/
theorem claim_C4_counterexample :
    StreamingText.streamingDisplay "=== GRAPH DATA ===\nx"
        (Typewriter.advance Typewriter.initState "=== GRAPH DATA ===\nx") =
      ("", true) ∧
    ("" : String) ≠ "=== GRAPH DATA ===\nx" ∧
    StreamingText.streamingDisplay "=== ANÁLISIS ===\nhola"
        (Typewriter.advance Typewriter.initState "=== ANÁLISIS ===\nhola") =
      ("", true) ∧
    ("" : String) ≠ "=== ANÁLISIS ===\nhola" := by
  refine ⟨by decide, by decide, by decide, by decide⟩

/-- C4 (amended): the animator is bypassed exactly for non-empty content
containing `=== ANALYSIS ===` or `=== DATA TABLE ===` as a substring
(not `=== GRAPH DATA ===`, nor the translated variants): for such
content the rendered text equals the full content immediately and the
rendered typing flag is off, whatever the animator state. -/
theorem claim_C4_amended (content : String) (tw : Typewriter.TWState)
    (h : StreamingText.isStructuredContent content = true) :
    StreamingText.streamingDisplay content tw = (content, false) := by
  simp [StreamingText.streamingDisplay, h]

/-- Witness for C4: the bypass at a concrete structured content. -/
theorem claim_C4_witness :
    StreamingText.isStructuredContent "=== ANALYSIS ===\nx" = true ∧
    StreamingText.streamingDisplay "=== ANALYSIS ===\nx"
        Typewriter.initState = ("=== ANALYSIS ===\nx", false) :=
  ⟨by decide, claim_C4_amended "=== ANALYSIS ===\nx" Typewriter.initState
    (by decide)⟩

/-- What a left fold of `max` computes: an upper bound of the seed and
all elements, attained at one of them. -/
theorem foldl_max_spec (l : List Nat) (a : Nat) :
    a ≤ l.foldl max a ∧ (∀ x ∈ l, x ≤ l.foldl max a) ∧
      (l.foldl max a = a ∨ ∃ x ∈ l, l.foldl max a = x) := by
  induction l generalizing a with
  | nil => simp
  | cons b t ih =>
    obtain ⟨h1, h2, h3⟩ := ih (max a b)
    refine ⟨Nat.le_trans (Nat.le_max_left a b) h1, ?_, ?_⟩
    · intro x hx
      rcases List.mem_cons.mp hx with rfl | hx
      · exact Nat.le_trans (Nat.le_max_right a x) h1
      · exact h2 x hx
    · rcases h3 with h3 | ⟨x, hx, h3⟩
      · rcases max_choice a b with hm | hm
        · exact Or.inl (by rw [List.foldl_cons, h3, hm])
        · exact Or.inr ⟨b, by simp, by rw [List.foldl_cons, h3, hm]⟩
      · exact Or.inr ⟨x, List.mem_cons.mpr (Or.inr hx), h3⟩

/-- C5 counterexample: the graph column widths do NOT account for every
entry of a node's properties sequence — with one node whose properties
are `["p", "abcdefghijklmnopqrstuvwxyz01"]`, the code computes a
Properties width of 12 (from the first entry only) while the claimed
all-entries width is 30. -/
theorem claim_C5_counterexample :
    GraphTableFormatter.colWidth
        [⟨none, some "A", some "N",
          some ["p", "abcdefghijklmnopqrstuvwxyz01"], some []⟩]
        "properties" "Properties" = 12 ∧
    GraphTableFormatter.specColWidth
        [⟨none, some "A", some "N",
          some ["p", "abcdefghijklmnopqrstuvwxyz01"], some []⟩]
        "properties" "Properties" = 30 ∧
    GraphTableFormatter.colWidth
        [⟨none, some "A", some "N",
          some ["p", "abcdefghijklmnopqrstuvwxyz01"], some []⟩]
        "properties" "Properties" ≠
      GraphTableFormatter.specColWidth
        [⟨none, some "A", some "N",
          some ["p", "abcdefghijklmnopqrstuvwxyz01"], some []⟩]
        "properties" "Properties" := by
  refine ⟨by decide, by decide, by decide⟩

/-- C5 (amended): each graph column width is 2 plus the maximum of the
header length and the per-node displayed cell lengths, where the
per-node cell for the Properties/Relationships columns is only the
FIRST entry of the sequence (via `getNodeValue`), with no 40-character
cap: the width bounds the header and every such cell, and is attained
by the header or one of them. -/
theorem claim_C5_amended (nodes : List GraphTableFormatter.GraphNode)
    (key header : String) :
    header.length + 2 ≤ GraphTableFormatter.colWidth nodes key header ∧
    (∀ n ∈ nodes,
      (GraphTableFormatter.getNodeValue n key).length + 2 ≤
        GraphTableFormatter.colWidth nodes key header) ∧
    (GraphTableFormatter.colWidth nodes key header = header.length + 2 ∨
      ∃ n ∈ nodes,
        GraphTableFormatter.colWidth nodes key header =
          (GraphTableFormatter.getNodeValue n key).length + 2) := by
  obtain ⟨h1, h2, h3⟩ :=
    foldl_max_spec
      (nodes.map fun n => (GraphTableFormatter.getNodeValue n key).length)
      header.length
  refine ⟨Nat.add_le_add_right h1 2, ?_, ?_⟩
  · intro n hn
    exact Nat.add_le_add_right
      (h2 _ (List.mem_map_of_mem _ hn)) 2
  · rcases h3 with h3 | ⟨x, hx, h3⟩
    · exact Or.inl (by unfold GraphTableFormatter.colWidth; rw [h3])
    · obtain ⟨n, hn, rfl⟩ := List.mem_map.mp hx
      exact Or.inr ⟨n, hn, by unfold GraphTableFormatter.colWidth; rw [h3]⟩

/-- Witness for C5: the amended width characterisation at a concrete
node list. -/
theorem claim_C5_witness :
    ("Properties".length + 2 ≤
      GraphTableFormatter.colWidth
        [⟨none, some "A", some "N",
          some ["p", "abcdefghijklmnopqrstuvwxyz01"], some []⟩]
        "properties" "Properties") :=
  (claim_C5_amended
    [⟨none, some "A", some "N",
      some ["p", "abcdefghijklmnopqrstuvwxyz01"], some []⟩]
    "properties" "Properties").1

/-- C2 counterexample: `advance("Hello")` followed immediately by
`advance("Hello, world")` satisfies all conditions of the claim (the
second target extends the first, strictly extends the current display,
and the typing lag is 0), yet the tick IS restarted: the interval
generation changes. The code refuses the extension path whenever the
display is still empty. -/
theorem claim_C2_counterexample :
    jsStartsWith "Hello, world" "Hello" = true ∧
    jsStartsWith "Hello, world"
      (Typewriter.advance Typewriter.initState "Hello").display = true ∧
    (Typewriter.advance Typewriter.initState "Hello").display.length <
      ("Hello, world" : String).length ∧
    (Typewriter.advance Typewriter.initState "Hello").display.length -
      (Typewriter.advance Typewriter.initState "Hello").cursor ≤ 10 ∧
    (Typewriter.advance (Typewriter.advance Typewriter.initState "Hello")
        "Hello, world").gen ≠
      (Typewriter.advance Typewriter.initState "Hello").gen := by
  refine ⟨by decide, by decide, by decide, by decide, by decide⟩

/-- C2 (amended): if `advance(t1)` is followed, after any number of
ticks, by `advance(t2)` where `t2` begins with `t1`, `t2` strictly
extends the current display, the typing lag is at most 10, AND the
display is non-empty at the time of the second call, then the second
call changes nothing but the typing flag: cursor, display, interval and
interval generation are all preserved (the tick is not restarted), and
the ticks in between only increased the cursor. When the display is
still empty the code restarts the tick instead (see the
counterexample), though even then the cursor is never moved backwards
and no non-empty display is cleared. -/
theorem claim_C2_amended (s0 : Typewriter.TWState) (t1 t2 : String)
    (n : Nat)
    (h1 : jsStartsWith t2 t1 = true)
    (h2 : jsStartsWith t2
      (Typewriter.ticks n (Typewriter.advance s0 t1)).display = true)
    (h3 : (Typewriter.ticks n (Typewriter.advance s0 t1)).display.length <
      t2.length)
    (h4 : (Typewriter.ticks n (Typewriter.advance s0 t1)).display.length -
      (Typewriter.ticks n (Typewriter.advance s0 t1)).cursor ≤ 10)
    (h5 : (Typewriter.ticks n (Typewriter.advance s0 t1)).display ≠ "") :
    Typewriter.advance (Typewriter.ticks n (Typewriter.advance s0 t1)) t2 =
      { Typewriter.ticks n (Typewriter.advance s0 t1) with isTyping := true } ∧
    (Typewriter.advance (Typewriter.ticks n (Typewriter.advance s0 t1))
        t2).gen =
      (Typewriter.ticks n (Typewriter.advance s0 t1)).gen ∧
    (Typewriter.advance (Typewriter.ticks n (Typewriter.advance s0 t1))
        t2).cursor =
      (Typewriter.ticks n (Typewriter.advance s0 t1)).cursor ∧
    (Typewriter.advance (Typewriter.ticks n (Typewriter.advance s0 t1))
        t2).display =
      (Typewriter.ticks n (Typewriter.advance s0 t1)).display ∧
    (Typewriter.advance s0 t1).cursor ≤
      (Typewriter.ticks n (Typewriter.advance s0 t1)).cursor := by
  have hne : t2 ≠ "" :=
    string_ne_empty_of_length_pos (Nat.lt_of_le_of_lt (Nat.zero_le _) h3)
  have hmain := Typewriter.advance_extension
    (Typewriter.ticks n (Typewriter.advance s0 t1)) t2 hne h3 h2 h5 h4
  exact ⟨hmain, by rw [hmain], by rw [hmain], by rw [hmain],
    Typewriter.ticks_cursor_le n (Typewriter.advance s0 t1)⟩

/-- Witness for C2: `advance("Hi!")`, one tick (display `"H"`), then
`advance("Hi! there")` preserves cursor, display and the running
interval. -/
theorem claim_C2_witness :
    jsStartsWith "Hi! there" "Hi!" = true ∧
    (Typewriter.ticks 1
      (Typewriter.advance Typewriter.initState "Hi!")).display ≠ "" ∧
    Typewriter.advance
        (Typewriter.ticks 1 (Typewriter.advance Typewriter.initState "Hi!"))
        "Hi! there" =
      ⟨"H", 1, true, some "Hi!", 1⟩ :=
  ⟨by decide, by decide,
    (claim_C2_amended Typewriter.initState "Hi!" "Hi! there" 1 (by decide)
      (by decide) (by decide) (by decide) (by decide)).1⟩

/-- C3 counterexample: the claim includes the empty target, but
`advance("")` is an early-return no-op — with current display `"x"`,
the display stays `"x"` (not a prefix of the empty target) and the
cursor is untouched. -/
theorem claim_C3_counterexample :
    jsStartsWith ""
      (Typewriter.ticks 1
        (Typewriter.advance Typewriter.initState "x")).display = false ∧
    (Typewriter.advance
        (Typewriter.ticks 1 (Typewriter.advance Typewriter.initState "x"))
        "").display = "x" ∧
    ("x" : String) ≠ "" := by
  refine ⟨by decide, by decide, by decide⟩

/-- C3 (amended): for every NON-EMPTY target `t` that does not start
with the current display, `advance(t)` immediately makes the display a
prefix of `t` — the empty prefix, or exactly the first 10000 characters
when `t` exceeds 10000 characters — with the cursor equal to the new
display length. (For the empty target the code instead returns early,
leaving display and cursor unchanged and only clearing the typing
flag.) -/
theorem claim_C3_amended (s : Typewriter.TWState) (t : String)
    (hne : t ≠ "") (hpre : jsStartsWith t s.display = false) :
    (t.length > 10000 →
      (Typewriter.advance s t).display = jsTake t 10000 ∧
      (Typewriter.advance s t).cursor = 10000) ∧
    (t.length ≤ 10000 →
      (Typewriter.advance s t).display = "" ∧
      (Typewriter.advance s t).cursor = 0) ∧
    jsStartsWith t (Typewriter.advance s t).display = true ∧
    (Typewriter.advance s t).cursor =
      (Typewriter.advance s t).display.length := by
  have h := Typewriter.advance_restart s t hne hpre
  by_cases hlen : t.length > 10000
  · rw [h, if_pos hlen]
    refine ⟨fun _ => ⟨rfl, rfl⟩,
      fun hle => absurd hlen (Nat.not_lt.mpr hle), ?_, ?_⟩
    · show (String.mk (t.data.take 10000)).data.isPrefixOf t.data = true
      exact isPrefixOf_take t.data 10000
    · show 10000 = (t.data.take 10000).length
      have hd : t.length = t.data.length := rfl
      rw [List.length_take]
      omega
  · rw [h, if_neg hlen]
    refine ⟨fun hgt => absurd hgt hlen, fun _ => ⟨rfl, rfl⟩, ?_, rfl⟩
    show List.isPrefixOf [] t.data = true
    exact nil_isPrefixOf t.data

/-- Witness for C3: a restart at a concrete non-matching short target. -/
theorem claim_C3_witness :
    ("abc" : String) ≠ "" ∧
    jsStartsWith "abc"
      (Typewriter.TWState.mk "x" 1 true (some "x") 1).display = false ∧
    (Typewriter.advance ⟨"x", 1, true, some "x", 1⟩ "abc").display = "" ∧
    (Typewriter.advance ⟨"x", 1, true, some "x", 1⟩ "abc").cursor = 0 :=
  ⟨by decide, by decide,
    ((claim_C3_amended ⟨"x", 1, true, some "x", 1⟩ "abc" (by decide)
      (by decide)).2.1 (by decide)).1,
    ((claim_C3_amended ⟨"x", 1, true, some "x", 1⟩ "abc" (by decide)
      (by decide)).2.1 (by decide)).2⟩

/-- C6: more than 100 rows render exactly 100 data-row lines with the
footer `"<N> rows (showing first 100)"`; 1 to 100 rows all render, with
the exact count and correct singular/plural in the footer. -/
theorem claim_C6 (data : List TableFormatter.TabRow) :
    (data.length > 100 →
      (TableFormatter.tableDataRows data).length = 100 ∧
      TableFormatter.rowCountText data =
        toString data.length ++ " rows (showing first 100)") ∧
    (1 ≤ data.length → data.length ≤ 100 →
      (TableFormatter.tableDataRows data).length = data.length ∧
      TableFormatter.rowCountText data =
        toString data.length ++ " row" ++
          (if data.length = 1 then "" else "s")) := by
  constructor
  · intro h
    constructor
    · show ((data.take 100).map _).length = 100
      rw [List.length_map, List.length_take]
      omega
    · unfold TableFormatter.rowCountText
      rw [if_pos h]
  · intro h1 h100
    constructor
    · show ((data.take 100).map _).length = data.length
      rw [List.length_map, List.length_take]
      omega
    · unfold TableFormatter.rowCountText
      rw [if_neg (by omega)]

set_option maxRecDepth 4000 in
/-- Witness for C6: a 150-row input renders 100 data rows with footer
`"150 rows (showing first 100)"`; a 2-row input has footer `"2 rows"`. -/
theorem claim_C6_witness :
    (TableFormatter.tableDataRows
      (List.replicate 150 [("v", TableFormatter.JValue.num 1)])).length =
        100 ∧
    TableFormatter.rowCountText
      (List.replicate 150 [("v", TableFormatter.JValue.num 1)]) =
        "150 rows (showing first 100)" ∧
    TableFormatter.rowCountText
      [[("v", TableFormatter.JValue.num 1)],
       [("v", TableFormatter.JValue.num 2)]] = "2 rows" := by
  have h := claim_C6 (List.replicate 150 [("v", TableFormatter.JValue.num 1)])
  have h2 := claim_C6
    [[("v", TableFormatter.JValue.num 1)],
     [("v", TableFormatter.JValue.num 2)]]
  refine ⟨(h.1 (by rw [List.length_replicate]; omega)).1, ?_, ?_⟩
  · rw [(h.1 (by rw [List.length_replicate]; omega)).2]
    decide
  · rw [(h2.2 (by decide) (by decide)).2]
    decide

/-- Case characterisation of one step of the `hasNumbers` fold. -/
theorem tabColNumericStep (h : String) (b : Bool)
    (row : TableFormatter.TabRow) :
    (let raw := TableFormatter.rowGet row h
     if b = true ∧ raw ≠ TableFormatter.JValue.null ∧
         raw ≠ TableFormatter.JValue.undef then
       b && TableFormatter.isNumeric raw
     else b) =
    (b && (decide (TableFormatter.rowGet row h = TableFormatter.JValue.null) ||
      decide (TableFormatter.rowGet row h = TableFormatter.JValue.undef) ||
      TableFormatter.isNumeric (TableFormatter.rowGet row h))) := by
  by_cases hb : b = true <;>
    by_cases h1 : TableFormatter.rowGet row h = TableFormatter.JValue.null <;>
    by_cases h2 : TableFormatter.rowGet row h = TableFormatter.JValue.undef <;>
    simp [hb, h1, h2]

/-- A left fold of `&&` over a list equals the seed conjoined with
`List.all`. -/
theorem foldl_and_eq {α : Type} (p : α → Bool) (l : List α) (b : Bool) :
    l.foldl (fun acc x => acc && p x) b = (b && l.all p) := by
  induction l generalizing b with
  | nil => simp
  | cons x t ih => simp [List.foldl_cons, ih, Bool.and_assoc]

/-- C7: a column is right-justified iff every non-null, non-undefined
value in it is numeric (the code's `isNumeric`: numbers, or strings
`parseFloat` reads a number from); header cells are always
left-justified; data cells are padded left/right per the column flag. -/
theorem claim_C7 (data : List TableFormatter.TabRow) (h : String)
    (hne : data ≠ []) :
    (TableFormatter.tabColNumeric data h = true ↔
      ∀ row ∈ data,
        TableFormatter.rowGet row h = TableFormatter.JValue.null ∨
        TableFormatter.rowGet row h = TableFormatter.JValue.undef ∨
        TableFormatter.isNumeric (TableFormatter.rowGet row h) = true) ∧
    TableFormatter.headerRow data =
      "│" ++ String.join ((TableFormatter.tableHeaders data).map
        (fun k => " " ++ jsPadEnd k (TableFormatter.tabColWidth data k) ++
          " " ++ "│")) ∧
    (∀ row, TableFormatter.tabColNumeric data h = true →
      TableFormatter.dataCell data row h =
        jsPadStart (TableFormatter.cellText row h)
          (TableFormatter.tabColWidth data h)) ∧
    (∀ row, TableFormatter.tabColNumeric data h = false →
      TableFormatter.dataCell data row h =
        jsPadEnd (TableFormatter.cellText row h)
          (TableFormatter.tabColWidth data h)) := by
  refine ⟨?_, rfl, ?_, ?_⟩
  · unfold TableFormatter.tabColNumeric
    have hfun :
        (fun (hasNumbers : Bool) (row : TableFormatter.TabRow) =>
          let raw := TableFormatter.rowGet row h
          if hasNumbers = true ∧ raw ≠ TableFormatter.JValue.null ∧
              raw ≠ TableFormatter.JValue.undef then
            hasNumbers && TableFormatter.isNumeric raw
          else hasNumbers) =
        (fun acc row => acc &&
          (decide (TableFormatter.rowGet row h = TableFormatter.JValue.null) ||
          decide (TableFormatter.rowGet row h = TableFormatter.JValue.undef) ||
          TableFormatter.isNumeric (TableFormatter.rowGet row h))) := by
      funext b row
      exact tabColNumericStep h b row
    rw [hfun, foldl_and_eq, Bool.true_and, List.all_eq_true]
    constructor
    · intro ha row hrow
      have h3 := ha row hrow
      rw [Bool.or_eq_true, Bool.or_eq_true, decide_eq_true_eq,
        decide_eq_true_eq] at h3
      exact or_assoc.mp h3
    · intro ha row hrow
      rw [Bool.or_eq_true, Bool.or_eq_true, decide_eq_true_eq,
        decide_eq_true_eq]
      exact or_assoc.mpr (ha row hrow)
  · intro row hal
    unfold TableFormatter.dataCell
    rw [hal]
    rfl
  · intro row hal
    unfold TableFormatter.dataCell
    rw [hal]
    rfl

/-- Witness for C7: in the two-row scenario
`[{state: "Iowa", yield: 1234.5}, {state: "Ohio", yield: 987}]` the
`yield` column is numeric-aligned. -/
theorem claim_C7_witness :
    TableFormatter.tabColNumeric
      [[("state", TableFormatter.JValue.str "Iowa"),
        ("yield", TableFormatter.JValue.num (2469 / 2))],
       [("state", TableFormatter.JValue.str "Ohio"),
        ("yield", TableFormatter.JValue.num 987)]] "yield" = true :=
  ((claim_C7
    [[("state", TableFormatter.JValue.str "Iowa"),
      ("yield", TableFormatter.JValue.num (2469 / 2))],
     [("state", TableFormatter.JValue.str "Ohio"),
      ("yield", TableFormatter.JValue.num 987)]] "yield"
    (by decide)).1).mpr (by decide)

/-- `xs?.length || 1` equals `max |xs| 1` over the optional sequence. -/
theorem optLenOr1_eq (o : Option (List String)) :
    GraphTableFormatter.optLenOr1 o = max (o.getD []).length 1 := by
  cases o with
  | none => rfl
  | some l =>
    by_cases hl : l.length = 0 <;>
      simp [GraphTableFormatter.optLenOr1, hl] <;> omega

/-- C8: each node block has exactly `max(|properties|, |relationships|,
1)` physical lines; Labels and Name cells appear only on the first line
(blank afterwards); the Properties/Relationships cells show the
sequence entry at the line index, blank when exhausted; missing or
empty labels render the `"[:Node]"` placeholder, missing name renders
empty. -/
theorem claim_C8 (nodes : List GraphTableFormatter.GraphNode)
    (node : GraphTableFormatter.GraphNode) :
    (GraphTableFormatter.nodeLines nodes node).length =
      max (max (node.properties.getD []).length
        (node.relationships.getD []).length) 1 ∧
    GraphTableFormatter.nodeCellValue node "labels" 0 =
      GraphTableFormatter.jsStrOr node.labels "[:Node]" ∧
    GraphTableFormatter.nodeCellValue node "name" 0 =
      GraphTableFormatter.jsStrOr node.name "" ∧
    (∀ i, 0 < i →
      GraphTableFormatter.nodeCellValue node "labels" i = "" ∧
      GraphTableFormatter.nodeCellValue node "name" i = "") ∧
    (∀ i,
      GraphTableFormatter.nodeCellValue node "properties" i =
        (node.properties.getD []).getD i "" ∧
      GraphTableFormatter.nodeCellValue node "relationships" i =
        (node.relationships.getD []).getD i "") ∧
    ((node.labels = none ∨ node.labels = some "") →
      GraphTableFormatter.nodeCellValue node "labels" 0 = "[:Node]") := by
  refine ⟨?_, rfl, rfl, ?_, ?_, ?_⟩
  · unfold GraphTableFormatter.nodeLines
    rw [List.length_map, List.length_range]
    unfold GraphTableFormatter.nodeMaxLines
    rw [optLenOr1_eq, optLenOr1_eq]
    omega
  · intro i hi
    have hcond : ¬(i = 0 ∧ ("labels" = "node_id" ∨ "labels" = "labels" ∨
        "labels" = "name")) := fun hc => absurd hc.1 (by omega)
    have hcond2 : ¬(i = 0 ∧ ("name" = "node_id" ∨ "name" = "labels" ∨
        "name" = "name")) := fun hc => absurd hc.1 (by omega)
    constructor
    · unfold GraphTableFormatter.nodeCellValue
      rw [if_neg hcond]
      rfl
    · unfold GraphTableFormatter.nodeCellValue
      rw [if_neg hcond2]
      rfl
  · intro i
    have hcondP : ¬(i = 0 ∧ ("properties" = "node_id" ∨
        "properties" = "labels" ∨ "properties" = "name")) :=
      fun hc => absurd hc.2 (by decide)
    have hcondR : ¬(i = 0 ∧ ("relationships" = "node_id" ∨
        "relationships" = "labels" ∨ "relationships" = "name")) :=
      fun hc => absurd hc.2 (by decide)
    constructor
    · unfold GraphTableFormatter.nodeCellValue
      rw [if_neg hcondP]
      cases node.properties <;> rfl
    · unfold GraphTableFormatter.nodeCellValue
      rw [if_neg hcondR]
      cases node.relationships <;> rfl
  · intro hmiss
    rcases hmiss with hl | hl <;>
      · show GraphTableFormatter.jsStrOr node.labels "[:Node]" = "[:Node]"
        rw [hl]
        rfl

/-- Witness for C8: a concrete node with three properties, no
relationships and missing labels. -/
theorem claim_C8_witness :
    (GraphTableFormatter.nodeLines
      [⟨none, none, none, some ["a", "b", "c"], some []⟩]
      ⟨none, none, none, some ["a", "b", "c"], some []⟩).length =
      max (max ((some ["a", "b", "c"] : Option (List String)).getD []).length
        ((some ([] : List String) : Option (List String)).getD []).length)
        1 ∧
    GraphTableFormatter.nodeCellValue
      ⟨none, none, none, some ["a", "b", "c"], some []⟩ "labels" 0 =
      "[:Node]" :=
  ⟨(claim_C8 [⟨none, none, none, some ["a", "b", "c"], some []⟩]
      ⟨none, none, none, some ["a", "b", "c"], some []⟩).1,
   (claim_C8 [⟨none, none, none, some ["a", "b", "c"], some []⟩]
      ⟨none, none, none, some ["a", "b", "c"], some []⟩).2.2.2.2.2
    (Or.inl rfl)⟩

/-- C9: while inside a table-kind section, a line containing `"rows"`
and no recognised box-drawing glyph closes the current table section
with that line as its last body line and opens a fresh plain-text
section; a line containing a recognised glyph is instead appended as
table body content (the current section becoming/remaining a
table-body section, still inside the table). -/
theorem claim_C9 (isGraph : Bool) (st : StreamingText.PState)
    (line : String) (hin : st.inTable = true) :
    (jsIncludes line "rows" = true →
      StreamingText.hasTableGlyph line = false →
      StreamingText.stepLine isGraph st line =
        ⟨st.sections ++
          [⟨st.cur.type, jsJoinLines (st.cur.content ++ [line])⟩],
         ⟨StreamingText.SType.text, []⟩, false⟩) ∧
    (StreamingText.hasTableGlyph line = true →
      (StreamingText.stepLine isGraph st line).inTable = true ∧
      (StreamingText.stepLine isGraph st line).cur.content.getLast? =
        some line ∧
      ((StreamingText.stepLine isGraph st line).cur.type =
        (if isGraph then StreamingText.SType.graphTable
         else StreamingText.SType.table) ∨
       (StreamingText.stepLine isGraph st line).cur.type =
        StreamingText.SType.table)) := by
  constructor
  · intro hrows hglyph
    have hm1 : ¬(line = "=== ANALYSIS ===" ∨ line = "=== ANÁLISIS ===") := by
      rintro (rfl | rfl) <;> exact absurd hrows (by decide)
    have hm2 : ¬(line = "=== DATA TABLE ===" ∨
        line = "=== TABLA DE DATOS ===" ∨ line = "=== GRAPH DATA ===") := by
      rintro (rfl | rfl | rfl) <;> exact absurd hrows (by decide)
    unfold StreamingText.stepLine
    rw [if_neg hm1, if_neg hm2,
      if_neg (fun hc => by simp [hglyph] at hc),
      if_neg (fun hc => hc.2.2.2 hrows),
      if_pos ⟨hin, hrows⟩]
  · intro hglyph
    have hm1 : ¬(line = "=== ANALYSIS ===" ∨ line = "=== ANÁLISIS ===") := by
      rintro (rfl | rfl) <;> exact absurd hglyph (by decide)
    have hm2 : ¬(line = "=== DATA TABLE ===" ∨
        line = "=== TABLA DE DATOS ===" ∨ line = "=== GRAPH DATA ===") := by
      rintro (rfl | rfl | rfl) <;> exact absurd hglyph (by decide)
    unfold StreamingText.stepLine
    rw [if_neg hm1, if_neg hm2, if_pos ⟨hin, hglyph⟩]
    by_cases hsw : st.cur.type ≠
        (if isGraph then StreamingText.SType.graphTable
         else StreamingText.SType.table) ∧
        st.cur.type ≠ StreamingText.SType.table
    · rw [if_pos hsw]
      exact ⟨hin, rfl, Or.inl rfl⟩
    · rw [if_neg hsw]
      rcases not_and_or.mp hsw with hty | hty
    
      · exact ⟨hin, List.getLast?_concat _, Or.inl (not_not.mp hty)⟩
      · exact ⟨hin, List.getLast?_concat _, Or.inr (not_not.mp hty)⟩

/-- Witness for C9: a concrete table-body state closed by a `"3 rows"`
line. -/
theorem claim_C9_witness :
    jsIncludes "3 rows" "rows" = true ∧
    StreamingText.hasTableGlyph "3 rows" = false ∧
    StreamingText.stepLine false
        ⟨[], ⟨StreamingText.SType.table, ["│x│"]⟩, true⟩ "3 rows" =
      ⟨[] ++ [⟨StreamingText.SType.table, jsJoinLines (["│x│"] ++ ["3 rows"])⟩],
       ⟨StreamingText.SType.text, []⟩, false⟩ :=
  ⟨by decide, by decide,
    (claim_C9 false ⟨[], ⟨StreamingText.SType.table, ["│x│"]⟩, true⟩
      "3 rows" rfl).1 (by decide) (by decide)⟩

/-- Every line produced by splitting a string on newlines is
newline-free. -/
theorem jsSplitLines_no_newline (s : String) :
    ∀ l ∈ jsSplitLines s, '\n' ∉ l.data := by
  intro l hl
  obtain ⟨p, hp, rfl⟩ := List.mem_map.mp hl
  exact JsStr.splitNL_no_newline s.data p hp

/-- Mapping `String.mk` after `String.data` is the identity. -/
theorem map_mk_data (ls : List String) :
    (ls.map String.data).map String.mk = ls := by
  induction ls with
  | nil => rfl
  | cons x t ih => rw [List.map_cons, List.map_cons, ih]

/-- Splitting the newline-join of newline-free lines recovers them. -/
theorem jsSplit_join (ls : List String) (hne : ls ≠ [])
    (hfree : ∀ l ∈ ls, '\n' ∉ l.data) :
    jsSplitLines (jsJoinLines ls) = ls := by
  unfold jsSplitLines jsJoinLines
  rw [JsStr.splitNL_joinNL (ls.map String.data) (by simpa using hne)
    (by intro p hp
        obtain ⟨l, hl, rfl⟩ := List.mem_map.mp hp
        exact hfree l hl)]
  exact map_mk_data ls

/-- `pushCur` preserves the line partition: the flattened lines of the
pushed sections are the flattened lines before plus the current
section's lines (dropped sections are exactly the empty ones). -/
theorem pushCur_flat (ss : List StreamingText.Section)
    (cur : StreamingText.CurSection)
    (hfree : ∀ l ∈ cur.content, '\n' ∉ l.data) :
    (StreamingText.pushCur ss cur).flatMap StreamingText.sectionLines =
      ss.flatMap StreamingText.sectionLines ++ cur.content := by
  unfold StreamingText.pushCur
  by_cases hc : cur.content.length > 0
  · rw [if_pos hc, List.flatMap_append]
    have hrt : StreamingText.sectionLines
        ⟨cur.type, jsJoinLines cur.content⟩ = cur.content := by
      unfold StreamingText.sectionLines
      exact jsSplit_join cur.content
        (by intro h0; rw [h0] at hc; simp at hc) hfree
    simp [hrt]
  · rw [if_neg hc]
    cases hcc : cur.content with
    | nil => rw [List.append_nil]
    | cons a t => exact absurd (by rw [hcc]; simp) hc

/-- One parser step preserves the line partition: after processing
`line`, the flattened completed sections plus the current section's
lines equal the previous flattened lines plus `line`; and the current
section's lines stay newline-free. -/
theorem stepLine_pres (isGraph : Bool) (st : StreamingText.PState)
    (line : String)
    (hfree : ∀ l ∈ st.cur.content, '\n' ∉ l.data)
    (hline : '\n' ∉ line.data) :
    ((StreamingText.stepLine isGraph st line).sections.flatMap
        StreamingText.sectionLines ++
      (StreamingText.stepLine isGraph st line).cur.content =
      st.sections.flatMap StreamingText.sectionLines ++
        st.cur.content ++ [line]) ∧
    (∀ l ∈ (StreamingText.stepLine isGraph st line).cur.content,
      '\n' ∉ l.data) := by
  have hsingle : ∀ l ∈ [line], '\n' ∉ l.data := by
    intro l hl
    rw [List.mem_singleton.mp hl]
    exact hline
  have happ : ∀ l ∈ st.cur.content ++ [line], '\n' ∉ l.data := by
    intro l hl
    rcases List.mem_append.mp hl with hl | hl
    · exact hfree l hl
    · exact hsingle l hl
  unfold StreamingText.stepLine
  by_cases h1 : line = "=== ANALYSIS ===" ∨ line = "=== ANÁLISIS ==="
  · rw [if_pos h1]
    exact ⟨by dsimp only; rw [pushCur_flat st.sections st.cur hfree], hsingle⟩
  rw [if_neg h1]
  by_cases h2 : line = "=== DATA TABLE ===" ∨
      line = "=== TABLA DE DATOS ===" ∨ line = "=== GRAPH DATA ==="
  · rw [if_pos h2]
    exact ⟨by dsimp only; rw [pushCur_flat st.sections st.cur hfree], hsingle⟩
  rw [if_neg h2]
  by_cases h3 : st.inTable = true ∧ StreamingText.hasTableGlyph line = true
  · rw [if_pos h3]
    dsimp only
    by_cases hsw : st.cur.type ≠
        (if isGraph then StreamingText.SType.graphTable
         else StreamingText.SType.table) ∧
        st.cur.type ≠ StreamingText.SType.table
    · rw [if_pos hsw]
      exact ⟨by dsimp only; rw [pushCur_flat st.sections st.cur hfree],
        hsingle⟩
    · rw [if_neg hsw]
      exact ⟨by dsimp only; rw [List.append_assoc], happ⟩
  rw [if_neg h3]
  by_cases h4 : st.inTable = true ∧
      st.cur.type = StreamingText.SType.table ∧ jsTrim line ≠ "" ∧
      ¬jsIncludes line "rows" = true
  · rw [if_pos h4]
    exact ⟨by dsimp only; rw [List.append_assoc], happ⟩
  rw [if_neg h4]
  by_cases h5 : st.inTable = true ∧ jsIncludes line "rows" = true
  · rw [if_pos h5]
    dsimp only
    refine ⟨?_, by intro l hl; exact absurd hl (by simp)⟩
    have hrt : StreamingText.sectionLines
        ⟨st.cur.type, jsJoinLines (st.cur.content ++ [line])⟩ =
        st.cur.content ++ [line] := by
      unfold StreamingText.sectionLines
      exact jsSplit_join (st.cur.content ++ [line]) (by simp) happ
    simp [List.flatMap_append, hrt]
  rw [if_neg h5]
  by_cases h6 : st.inTable = true ∧ st.cur.type = StreamingText.SType.table
  · rw [if_pos h6]
    exact ⟨by dsimp only; rw [pushCur_flat st.sections st.cur hfree],
      hsingle⟩
  · rw [if_neg h6]
    exact ⟨by dsimp only; rw [List.append_assoc], happ⟩

/-- The whole fold over the input lines preserves the line partition. -/
theorem foldl_stepLine_pres (isGraph : Bool) (lines : List String)
    (st : StreamingText.PState)
    (hfree : ∀ l ∈ st.cur.content, '\n' ∉ l.data)
    (hlines : ∀ l ∈ lines, '\n' ∉ l.data) :
    ((lines.foldl (StreamingText.stepLine isGraph) st).sections.flatMap
        StreamingText.sectionLines ++
      (lines.foldl (StreamingText.stepLine isGraph) st).cur.content =
      st.sections.flatMap StreamingText.sectionLines ++
        st.cur.content ++ lines) ∧
    (∀ l ∈ (lines.foldl (StreamingText.stepLine isGraph) st).cur.content,
      '\n' ∉ l.data) := by
  induction lines generalizing st with
  | nil => exact ⟨by simp, hfree⟩
  | cons l t ih =>
    obtain ⟨hstep1, hstep2⟩ :=
      stepLine_pres isGraph st l hfree (hlines l (by simp))
    obtain ⟨hind1, hind2⟩ := ih (StreamingText.stepLine isGraph st l) hstep2
      (fun x hx => hlines x (by simp [hx]))
    refine ⟨?_, hind2⟩
    rw [List.foldl_cons, hind1, hstep1]
    simp

/-- C10 counterexample: the parser is NOT lossless on the empty input —
the empty text has one (empty) input line, but the parser
short-circuits to no sections at all, so that line appears in no
section. -/
theorem claim_C10_counterexample :
    StreamingText.parseContentSections false "" = [] ∧
    jsSplitLines "" = [""] ∧
    (StreamingText.parseContentSections false "").flatMap
        StreamingText.sectionLines ≠ jsSplitLines "" := by
  refine ⟨rfl, by decide, by decide⟩

/-- C10 (amended): for every NON-EMPTY input text, concatenating, in
order, the lines of every returned section's content reproduces exactly
the sequence of lines of the input text (every input line appears in
exactly one section, marker lines included; empty sections are the only
ones dropped). For the empty input the parser returns no sections,
dropping the single empty input line. -/
theorem claim_C10_amended (isGraph : Bool) (text : String)
    (hne : text ≠ "") :
    (StreamingText.parseContentSections isGraph text).flatMap
        StreamingText.sectionLines = jsSplitLines text := by
  unfold StreamingText.parseContentSections
  rw [if_neg hne]
  obtain ⟨h1, h2⟩ := foldl_stepLine_pres isGraph (jsSplitLines text)
    StreamingText.initPState (by simp [StreamingText.initPState])
    (jsSplitLines_no_newline text)
  rw [pushCur_flat _ _ h2, h1]
  simp [StreamingText.initPState]

/-- Witness for C10: the partition at a concrete mixed text. -/
theorem claim_C10_witness :
    (StreamingText.parseContentSections false
      "=== ANALYSIS ===\nhello\n=== DATA TABLE ===\n│x│\n2 rows\ntail").flatMap
        StreamingText.sectionLines =
      jsSplitLines
        "=== ANALYSIS ===\nhello\n=== DATA TABLE ===\n│x│\n2 rows\ntail" :=
  claim_C10_amended false
    "=== ANALYSIS ===\nhello\n=== DATA TABLE ===\n│x│\n2 rows\ntail"
    (by decide)
